import Mathlib

/-!
Verification of the admission-planning and resource-scheduling policies of the
bpmn-process-optimization repository.

The repository contains three planner variants:
* `OptimizedPlanner2.0.py` (embedded below under the `OP2` prefix),
* `OptimizedPlanner.py` (embedded under the `OP1` prefix; it shares the
  `OP2State` ledger shape because its `__init__` is identical),
* `HeuristicPlanner.py` (embedded under the `HP` prefix).

Simulated time is modelled as `ℚ` (Python floats carrying times and the
quarter-hour offsets used by the planners are exact in ℚ).  Python `dict`s
keyed by case id are modelled as functions `String → Option _` updated
functionally; iteration-ordered dicts are modelled as association lists.
Python's stable `list.sort` / `sorted` is modelled by `List.insertionSort`
(stable, hence extensionally identical on a total preorder).
A Python `NameError` caused by reading a local variable before assignment is
modelled by `Except Unit` (`.error ()` = the exception propagates).
-/

/-! ## Python arithmetic primitives -/

/-- Python floor division `t // m` on floats: the floor, returned as a float. -/
def pyFloorDiv (t m : ℚ) : ℚ := ((Rat.floor (t / m) : ℤ) : ℚ)

/-- Python modulo `t % m` on floats: `t - m * (t // m)` (sign of the divisor). -/
def pyMod (t m : ℚ) : ℚ := t - m * pyFloorDiv t m

/-- Python `int(q)`: truncation toward zero. -/
def pyTrunc (q : ℚ) : ℤ := if 0 ≤ q then Rat.floor q else -(Rat.floor (-q))

/-- Python `round(q)` with no digits: round half to even (banker's rounding). -/
def pyRound (q : ℚ) : ℤ :=
  let f : ℤ := Rat.floor q
  let r : ℚ := q - (f : ℚ)
  if r < 1/2 then f
  else if (1/2 : ℚ) < r then f + 1
  else if f % 2 = 0 then f else f + 1

/-- `pyRound` never drops below an integer lower bound of its argument. -/
theorem pyRound_ge (n : ℤ) (q : ℚ) (h : (n : ℚ) ≤ q) : n ≤ pyRound q := by
  have hf : n ≤ Rat.floor q := Rat.le_floor.mpr h
  unfold pyRound
  dsimp only
  split
  · exact hf
  · split
    · omega
    · split
      · exact hf
      · omega

/-! ## Shared data model -/

/-- The five resource types of the healthcare problem (`problems.ResourceType`). -/
inductive ResourceType : Type
  | OR
  | A_BED
  | B_BED
  | INTAKE
  | ER_PRACTITIONER
deriving DecidableEq, Repr

/-- The authoritative per-type maxima (5, 30, 40, 4, 9), the fixed external
contract stated in the planners' docstrings. -/
def resourceMax : ResourceType → ℕ
  | ResourceType.OR => 5
  | ResourceType.A_BED => 30
  | ResourceType.B_BED => 40
  | ResourceType.INTAKE => 4
  | ResourceType.ER_PRACTITIONER => 9

/-- Python `diagnosis in [...]` where `diagnosis` may be `None`. -/
def diagIn (d : Option String) (l : List String) : Bool :=
  match d with
  | none => false
  | some s => l.contains s

/-- Functional update of a dict modelled as `String → Option α`. -/
def updMap {α : Type} (m : String → Option α) (k : String) (v : α) :
    String → Option α :=
  fun x => if x = k then some v else m x

/-- Decidable equality of `Except` results, used to evaluate concrete planner
runs. -/
instance {e a : Type} [DecidableEq e] [DecidableEq a] : DecidableEq (Except e a) :=
  fun x y =>
    match x, y with
    | .error e1, .error e2 =>
      if h : e1 = e2 then isTrue (by rw [h])
      else isFalse (fun hc => h (by injection hc))
    | .ok x1, .ok x2 =>
      if h : x1 = x2 then isTrue (by rw [h])
      else isFalse (fun hc => h (by injection hc))
    | .error _, .ok _ => isFalse (fun hc => Except.noConfusion hc)
    | .ok _, .error _ => isFalse (fun hc => Except.noConfusion hc)

/-- `int((simulation_time // 24) % 7)` as it appears in both optimized planners. -/
def day_of_week (t : ℚ) : ℤ := pyTrunc (pyMod (pyFloorDiv t 24) 7)

/-- `int(simulation_time % 24)` as it appears in both optimized planners. -/
def hour_of_day (t : ℚ) : ℤ := pyTrunc (pyMod t 24)

/-! ## OptimizedPlanner2.0 : mutable planner state -/

/-- The mutable per-planner dictionaries of `OptimizedPlanner` (both variants):
`patient_diagnoses`, `patient_first_plan`, `last_replanned`. -/
structure OP2State : Type where
  patient_diagnoses : String → Option String
  patient_first_plan : String → Option ℚ
  last_replanned : String → Option ℚ

/-- A freshly constructed planner: all three dictionaries empty. -/
def OP2.freshState : OP2State :=
  ⟨fun _ => none, fun _ => none, fun _ => none⟩

/-- `for day_offset in range(14): target_day = (day_of_week + day_offset + 1) % 7`
leaves `target_day` holding the value of the final iteration.  The fold's
initial accumulator is never the result because `range 14` is non-empty. -/
def OP2.targetDayFinal (dow : ℤ) : ℤ :=
  (List.range 14).foldl (fun _ off => (dow + (off : ℤ) + 1) % 7) dow

/-- New-case priority table shared verbatim by both optimized planners
(`OptimizedPlanner2.0.py` lines 54-67, `OptimizedPlanner.py` lines 55-68). -/
def planNewPriority (target_day : ℤ) (diagnosis : Option String) : ℤ :=
  if target_day < 5 then
    if diagIn diagnosis ["B1", "B2"] then 1
    else if diagIn diagnosis ["A3", "A4", "B3", "B4"] then 0
    else 2
  else
    if diagIn diagnosis ["B1", "B2"] then 0
    else if diagIn diagnosis ["A3", "A4", "B3", "B4"] then 1
    else 2

/-- The `for case_id in cases_to_plan` loop of `OptimizedPlanner2.0.plan`
(lines 38-68).  It threads the `patient_first_plan` dict and the loop-local
Python variables `base_time` and `target_day`, which are *unassigned*
(`Option` = `none`) until the loop body runs at least once, and accumulates
`new_cases`. -/
def OP2.newLoop (diag : String → Option String) (t : ℚ) :
    List String → (String → Option ℚ) → Option ℚ → Option ℤ →
    List (String × ℤ) →
    (String → Option ℚ) × Option ℚ × Option ℤ × List (String × ℤ)
  | [], fp, bt, td, acc => (fp, bt, td, acc)
  | cid :: rest, fp, _, _, acc =>
    let fp' := match fp cid with
      | none => updMap fp cid t
      | some _ => fp
    let td' : ℤ := OP2.targetDayFinal (day_of_week t)
    let pri : ℤ := planNewPriority td' (diag cid)
    OP2.newLoop diag t rest fp' (some (t + 24)) (some td') (acc ++ [(cid, pri)])

/-- The fresh-case emission loop of `OptimizedPlanner2.0.plan` (lines 70-83):
spacing by priority tier, clamp at `simulation_time + 24`, then `round`.
Reading an unassigned `base_time` raises a `NameError` (`.error`), which can
only happen when `new_cases` is non-empty while `cases_to_plan` never ran. -/
def OP2.emitNew (t : ℚ) (bt : Option ℚ) (newCases : List (String × ℤ)) :
    Except Unit (List (String × ℤ)) :=
  match newCases, bt with
  | [], _ => .ok []
  | _ :: _, none => .error ()
  | l, some b => .ok (l.enum.map (fun p =>
      let adm : ℚ :=
        if p.2.2 = 0 then b + (p.1 : ℚ) * (1/4)
        else if p.2.2 = 1 then b + 2 + (p.1 : ℚ) * (1/4)
        else b + 4 + (p.1 : ℚ) * (1/4)
      (p.2.1, pyRound (max adm (t + 24)))))

/-- Replan priority table of `OptimizedPlanner2.0.plan` (lines 100-116). -/
def OP2.replanPriority (target_day : ℤ) (diagnosis : Option String)
    (wait : ℚ) : ℤ :=
  if target_day < 5 then
    if diagIn diagnosis ["B1", "B2"] || wait > 30 then 0
    else if diagIn diagnosis ["A3", "A4", "B3", "B4"] then 1
    else 2
  else
    if diagIn diagnosis ["B1", "B2"] || wait > 30 then 1
    else if diagIn diagnosis ["A3", "A4", "B3", "B4"] then 0
    else 2

/-- The `for case_id in cases_to_replan` candidate loop of
`OptimizedPlanner2.0.plan` (lines 88-116): cooldown filter first
(`last_replanned.get(case_id, 0)`), then priority via the possibly-unassigned
`target_day` (`none` raises the `NameError` of line 101). -/
def OP2.replanLoop (diag : String → Option String) (fp : String → Option ℚ)
    (lr : String → Option ℚ) (td : Option ℤ) (t : ℚ) :
    List String → Except Unit (List (String × ℤ × ℚ))
  | [] => .ok []
  | cid :: rest =>
    let wait : ℚ := t - ((fp cid).getD t)
    let last : ℚ := (lr cid).getD 0
    if t - last < 24 then OP2.replanLoop diag fp lr td t rest
    else
      match td with
      | none => .error ()
      | some d =>
        match OP2.replanLoop diag fp lr td t rest with
        | .error e => .error e
        | .ok l => .ok ((cid, OP2.replanPriority d (diag cid) wait, wait) :: l)

/-- The sort order `key=lambda x: (x[1], -x[2])` of line 119: ascending
priority, descending wait time. -/
def OP2.replanOrder (a b : String × ℤ × ℚ) : Prop :=
  a.2.1 < b.2.1 ∨ (a.2.1 = b.2.1 ∧ b.2.2 ≤ a.2.2)

instance : DecidableRel OP2.replanOrder := fun a b => by
  unfold OP2.replanOrder
  infer_instance

/-- Replan emission loop of `OptimizedPlanner2.0.plan` (lines 122-128): take
the first `min(35, len)` sorted candidates, emit `round(base_time + i)` and
stamp `last_replanned[case_id] = simulation_time`.  Reading an unassigned
`base_time` (line 126) raises a `NameError` before any stamp is written. -/
def OP2.emitReplans (t : ℚ) (bt : Option ℚ)
    (sorted : List (String × ℤ × ℚ)) (lr : String → Option ℚ) :
    Except Unit (List (String × ℤ) × (String → Option ℚ)) :=
  let taken := sorted.take (min 35 sorted.length)
  match taken, bt with
  | [], _ => .ok ([], lr)
  | _ :: _, none => .error ()
  | l, some b =>
    .ok (l.enum.map (fun p => (p.2.1, pyRound (b + (p.1 : ℚ)))),
         l.foldl (fun m p => updMap m p.1 t) lr)

/-- Result of the first `cases_to_plan` loop of `OptimizedPlanner2.0.plan`,
run on the planner state: the updated `patient_first_plan` dict, the loop
locals `base_time` and `target_day` (unassigned when the loop never ran), and
`new_cases`. -/
def OP2.newRes (st : OP2State) (ctp : List String) (t : ℚ) :
    (String → Option ℚ) × Option ℚ × Option ℤ × List (String × ℤ) :=
  OP2.newLoop st.patient_diagnoses t ctp st.patient_first_plan none none []

/-- Body of `OptimizedPlanner2.0.plan`, with the fresh-planning and
replanning portions of `planned_cases` kept separate.  The second component
is the post-call planner state; on a `NameError` the state still carries the
`patient_first_plan` writes already performed, and no `last_replanned` write
precedes either raise site. -/
def OP2.planSplit (st : OP2State) (ctp ctr : List String) (t : ℚ) :
    Except Unit (List (String × ℤ) × List (String × ℤ)) × OP2State :=
  let r := OP2.newRes st ctp t
  let st1 : OP2State := { st with patient_first_plan := r.1 }
  match OP2.emitNew t r.2.1 r.2.2.2 with
  | .error _ => (.error (), st1)
  | .ok fresh =>
    match OP2.replanLoop st.patient_diagnoses r.1 st.last_replanned r.2.2.1 t ctr with
    | .error _ => (.error (), st1)
    | .ok cands =>
      let sorted := List.insertionSort OP2.replanOrder cands
      match OP2.emitReplans t r.2.1 sorted st1.last_replanned with
      | .error _ => (.error (), st1)
      | .ok p => (.ok (fresh, p.1), { st1 with last_replanned := p.2 })

/-- `OptimizedPlanner2.0.plan`: the returned `planned_cases` list
(fresh plans followed by replans) together with the post-call state. -/
def OP2.plan (st : OP2State) (ctp ctr : List String) (t : ℚ) :
    Except Unit (List (String × ℤ)) × OP2State :=
  match OP2.planSplit st ctp ctr t with
  | (.error e, st') => (.error e, st')
  | (.ok p, st') => (.ok (p.1 ++ p.2), st')

/-! ## OptimizedPlanner2.0 : resource scheduling -/

/-- The `default_max` dict inside `OptimizedPlanner2.0.schedule.get_current`
(lines 152-158). -/
def OP2.default_max : ResourceType → ℕ
  | ResourceType.OR => 5
  | ResourceType.A_BED => 30
  | ResourceType.B_BED => 40
  | ResourceType.INTAKE => 4
  | ResourceType.ER_PRACTITIONER => 9

/-- `get_current(time, res_type)` of `OptimizedPlanner2.0.schedule`
(lines 151-160): it ignores `time` and always answers the fallback
`default_max.get(res_type, 0)`, which the complete dict makes total. -/
def OP2.get_current (_time : ℚ) (res_type : ResourceType) : ℕ :=
  OP2.default_max res_type

/-- Weekday `morning_res` capacity table (lines 177-183). -/
def OP2.weekdayMorning : List (ResourceType × ℕ) :=
  [(ResourceType.OR, 3), (ResourceType.A_BED, 25), (ResourceType.B_BED, 40),
   (ResourceType.INTAKE, 4), (ResourceType.ER_PRACTITIONER, 3)]

/-- Weekday `afternoon_res` capacity table (lines 186-192). -/
def OP2.weekdayAfternoon : List (ResourceType × ℕ) :=
  [(ResourceType.OR, 3), (ResourceType.A_BED, 25), (ResourceType.B_BED, 40),
   (ResourceType.INTAKE, 4), (ResourceType.ER_PRACTITIONER, 3)]

/-- Weekend `morning_res` capacity table (lines 197-203). -/
def OP2.weekendMorning : List (ResourceType × ℕ) :=
  [(ResourceType.OR, 2), (ResourceType.A_BED, 13), (ResourceType.B_BED, 40),
   (ResourceType.INTAKE, 3), (ResourceType.ER_PRACTITIONER, 6)]

/-- Weekend `afternoon_res` capacity table (lines 206-212). -/
def OP2.weekendAfternoon : List (ResourceType × ℕ) :=
  [(ResourceType.OR, 2), (ResourceType.A_BED, 13), (ResourceType.B_BED, 40),
   (ResourceType.INTAKE, 2), (ResourceType.ER_PRACTITIONER, 6)]

/-- One `for res_type, count in ..._res.items()` emission block of
`OptimizedPlanner2.0.schedule` (lines 215-221 and 224-230): inside the
`week_cutoff` the triple is emitted only when `count > get_current(...)`,
beyond the cutoff it is emitted unconditionally. -/
def OP2.applyBlock (cutoff time : ℚ) (tbl : List (ResourceType × ℕ)) :
    List (ResourceType × ℚ × ℕ) :=
  tbl.flatMap (fun p =>
    if time < cutoff then
      if OP2.get_current time p.1 < p.2 then [(p.1, time, p.2)] else []
    else [(p.1, time, p.2)])

/-- `OptimizedPlanner2.0.schedule` (lines 132-232): gate on 18:00, then loop
over a 14-day horizon emitting the morning (8 AM) and afternoon (2 PM) blocks
of the weekday or weekend capacity table. -/
def OP2.schedule (t : ℚ) : List (ResourceType × ℚ × ℕ) :=
  if hour_of_day t ≠ 18 then []
  else
    let next_day := t + (24 - (hour_of_day t : ℚ))
    let week_cutoff := t + 158
    (List.range 14).flatMap (fun day_offset =>
      let target_day := (day_of_week t + (day_offset : ℤ) + 1) % 7
      let target_date := next_day + (day_offset : ℚ) * 24
      let morning := target_date + 8
      let afternoon := target_date + 14
      if target_day < 5 then
        OP2.applyBlock week_cutoff morning OP2.weekdayMorning ++
          OP2.applyBlock week_cutoff afternoon OP2.weekdayAfternoon
      else
        OP2.applyBlock week_cutoff morning OP2.weekendMorning ++
          OP2.applyBlock week_cutoff afternoon OP2.weekendAfternoon)

/-- `OptimizedPlanner2.0.schedule` as a state transformer: the method body
reads and writes none of the planner's dictionaries, so the state passes
through untouched. -/
def OP2.scheduleS (st : OP2State) (t : ℚ) :
    List (ResourceType × ℚ × ℕ) × OP2State :=
  (OP2.schedule t, st)

/-! ## OptimizedPlanner2.0 : call traces -/

/-- One `plan` invocation: the two case-id lists and the simulation time. -/
structure Call : Type where
  ctp : List String
  ctr : List String
  t : ℚ

/-- Post-call planner state of one `plan` invocation. -/
def OP2.step (st : OP2State) (c : Call) : OP2State :=
  (OP2.planSplit st c.ctp c.ctr c.t).2

/-- Planner state after a sequence of `plan` invocations. -/
def OP2.runCalls (st : OP2State) (cs : List Call) : OP2State :=
  cs.foldl OP2.step st

/-- The call emitted `cid` in the replanning portion of its output. -/
def OP2.replanEmitted (st : OP2State) (c : Call) (cid : String) : Prop :=
  ∃ fresh rep, (OP2.planSplit st c.ctp c.ctr c.t).1 = .ok (fresh, rep) ∧
    cid ∈ rep.map Prod.fst

/-! ## OptimizedPlanner (first variant) -/

/-- Replan priority table of `OptimizedPlanner.plan` (lines 105-121); note the
branch condition is `target_day > 4`, the mirror image of the 2.0 variant. -/
def OP1.replanPriority (target_day : ℤ) (diagnosis : Option String)
    (wait : ℚ) : ℤ :=
  if target_day > 4 then
    if diagIn diagnosis ["B1", "B2"] || wait > 30 then 0
    else if diagIn diagnosis ["A3", "A4", "B3", "B4"] then 1
    else 2
  else
    if diagIn diagnosis ["B1", "B2"] || wait > 30 then 1
    else if diagIn diagnosis ["A3", "A4", "B3", "B4"] then 0
    else 2

/-- The `for case_id in cases_to_replan` candidate loop of
`OptimizedPlanner.plan` (lines 95-121).  `target_day` is always assigned there
(its computation sits at function level), so no error is possible. -/
def OP1.replanLoop (diag : String → Option String) (fp : String → Option ℚ)
    (lr : String → Option ℚ) (td : ℤ) (t : ℚ) :
    List String → List (String × ℤ × ℚ)
  | [] => []
  | cid :: rest =>
    let wait : ℚ := t - ((fp cid).getD t)
    let last : ℚ := (lr cid).getD 0
    if t - last < 24 then OP1.replanLoop diag fp lr td t rest
    else (cid, OP1.replanPriority td (diag cid) wait, wait) ::
      OP1.replanLoop diag fp lr td t rest

/-- The ascending-priority sort `new_cases.sort(key=lambda x: x[1])` of
`OptimizedPlanner.plan` line 74. -/
def OP1.newOrder (a b : String × ℤ) : Prop := a.2 ≤ b.2

instance : DecidableRel OP1.newOrder := fun a b => by
  unfold OP1.newOrder
  infer_instance

/-- The `patient_first_plan` dict after the first `for case_id in
cases_to_plan` loop of `OptimizedPlanner.plan` (lines 34-36). -/
def OP1.fpRes (st : OP2State) (ctp : List String) (t : ℚ) :
    String → Option ℚ :=
  ctp.foldl
    (fun fp cid => match fp cid with
      | none => updMap fp cid t
      | some _ => fp)
    st.patient_first_plan

/-- The first `min(10, len)` replan candidates of `OptimizedPlanner.plan`
after the cooldown filter and the `(priority, -wait_time)` sort
(lines 95-127). -/
def OP1.replanTaken (st : OP2State) (ctp ctr : List String) (t : ℚ) :
    List (String × ℤ × ℚ) :=
  let cands := OP1.replanLoop st.patient_diagnoses (OP1.fpRes st ctp t)
    st.last_replanned (OP2.targetDayFinal (day_of_week t)) t ctr
  let sorted := List.insertionSort OP2.replanOrder cands
  sorted.take (min 10 sorted.length)

/-- Body of `OptimizedPlanner.plan` (lines 26-135), with the fresh-planning
and replanning portions of `planned_cases` kept separate.  Its `for case_id in
cases_to_plan` body (lines 44-45) only assigns `diagnosis`, so after the loop
`diagnosis` and `case_id` hold the values from the *last* iteration; the
priority computation and the single `new_cases.append` of line 71 sit outside
the loop.  With an empty `cases_to_plan`, line 56 reads the unassigned
`diagnosis` and raises a `NameError` (`.error`) before any replan processing,
so the state keeps only the (then vacuous) `patient_first_plan` writes. -/
def OP1.planSplit (st : OP2State) (ctp ctr : List String) (t : ℚ) :
    Except Unit (List (String × ℤ) × List (String × ℤ)) × OP2State :=
  let fp' := OP1.fpRes st ctp t
  let st1 : OP2State := { st with patient_first_plan := fp' }
  let base_time := t + 24
  let dow := day_of_week t
  let target_day := OP2.targetDayFinal dow
  match ctp.getLast? with
  | none => (.error (), st1)
  | some lastCase =>
    let diagnosis := st.patient_diagnoses lastCase
    let newCases : List (String × ℤ) := [(lastCase, planNewPriority target_day diagnosis)]
    let newSorted := List.insertionSort OP1.newOrder newCases
    let fresh := newSorted.enum.map (fun p =>
      let adm : ℚ :=
        if p.2.2 = 0 then base_time + (p.1 : ℚ) * (1/2)
        else if p.2.2 = 1 then base_time + 2 + (p.1 : ℚ) * (1/2)
        else base_time + 4 + (p.1 : ℚ) * (1/2)
      (p.2.1, pyRound (max adm (t + 24))))
    let taken := OP1.replanTaken st ctp ctr t
    let rep := taken.enum.map (fun p => (p.2.1, pyRound (base_time + (p.1 : ℚ))))
    let lr' := taken.foldl (fun m p => updMap m p.1 t) st.last_replanned
    (.ok (fresh, rep), { st1 with last_replanned := lr' })

/-- `OptimizedPlanner.plan`: the returned `planned_cases` list (fresh plans
followed by replans) together with the post-call state. -/
def OP1.plan (st : OP2State) (ctp ctr : List String) (t : ℚ) :
    Except Unit (List (String × ℤ)) × OP2State :=
  match OP1.planSplit st ctp ctr t with
  | (.error e, st') => (.error e, st')
  | (.ok p, st') => (.ok (p.1 ++ p.2), st')

/-- Post-call planner state of one `OptimizedPlanner.plan` invocation. -/
def OP1.step (st : OP2State) (c : Call) : OP2State :=
  (OP1.planSplit st c.ctp c.ctr c.t).2

/-- Planner state after a sequence of `OptimizedPlanner.plan` invocations. -/
def OP1.runCalls (st : OP2State) (cs : List Call) : OP2State :=
  cs.foldl OP1.step st

/-- The call emitted `cid` in the replanning portion of
`OptimizedPlanner.plan`'s output. -/
def OP1.replanEmitted (st : OP2State) (c : Call) (cid : String) : Prop :=
  ∃ fresh rep, (OP1.planSplit st c.ctp c.ctr c.t).1 = .ok (fresh, rep) ∧
    cid ∈ rep.map Prod.fst

/-- `get_current` of `OptimizedPlanner.schedule` (lines 156-171): it consults
the simulator's schedule when that collaborator is available and answering
(modelled as an oracle `sim`; `none` = attribute missing or the `try` block
failed) and falls back to the `default_max` dict otherwise. -/
def OP1.get_current (sim : Option (ℚ → ResourceType → ℕ)) (time : ℚ)
    (res_type : ResourceType) : ℕ :=
  match sim with
  | some f => f time res_type
  | none => OP2.default_max res_type

/-- One capacity emission block of `OptimizedPlanner.schedule`
(lines 226-241), identical to the 2.0 variant except for its `get_current`. -/
def OP1.applyBlock (sim : Option (ℚ → ResourceType → ℕ)) (cutoff time : ℚ)
    (tbl : List (ResourceType × ℕ)) : List (ResourceType × ℚ × ℕ) :=
  tbl.flatMap (fun p =>
    if time < cutoff then
      if OP1.get_current sim time p.1 < p.2 then [(p.1, time, p.2)] else []
    else [(p.1, time, p.2)])

/-- `OptimizedPlanner.schedule` (lines 137-243): same gate, horizon, and
capacity tables as the 2.0 variant, with the simulator-backed `get_current`. -/
def OP1.schedule (sim : Option (ℚ → ResourceType → ℕ)) (t : ℚ) :
    List (ResourceType × ℚ × ℕ) :=
  if hour_of_day t ≠ 18 then []
  else
    let next_day := t + (24 - (hour_of_day t : ℚ))
    let week_cutoff := t + 158
    (List.range 14).flatMap (fun day_offset =>
      let target_day := (day_of_week t + (day_offset : ℤ) + 1) % 7
      let target_date := next_day + (day_offset : ℚ) * 24
      let morning := target_date + 8
      let afternoon := target_date + 14
      if target_day < 5 then
        OP1.applyBlock sim week_cutoff morning OP2.weekdayMorning ++
          OP1.applyBlock sim week_cutoff afternoon OP2.weekdayAfternoon
      else
        OP1.applyBlock sim week_cutoff morning OP2.weekendMorning ++
          OP1.applyBlock sim week_cutoff afternoon OP2.weekendAfternoon)

/-! ## HeuristicPlanner -/

/-- One `patient_info` record as read by
`HeuristicPlanner.calculate_priority`: the two fields the method queries. -/
structure HPInfo : Type where
  arrival_time : Option ℚ
  diagnosis : Option String

/-- HeuristicPlanner state.  The source reads `self.patient_info` in
`calculate_priority` but never initializes it (`__init__` has no such
attribute; a TODO comment at line 43 records the gap), so it is modelled here
as the planner-state dict the read presupposes. -/
structure HPState : Type where
  patient_info : String → Option HPInfo

/-- A HeuristicPlanner with no patient information on record. -/
def HP.freshState : HPState := ⟨fun _ => none⟩

/-- `HeuristicPlanner.calculate_priority` (lines 41-78): waiting time (weight
1) plus diagnosis severity (weight 10) plus the `replanning_penalty` of 20
added when `is_replan` is set. -/
def HP.calculate_priority (st : HPState) (case_id : String) (t : ℚ)
    (is_replan : Bool) : ℚ :=
  let info := st.patient_info case_id
  let arrival_time : ℚ := match info with
    | none => t
    | some i => i.arrival_time.getD t
  let waiting_time := t - arrival_time
  let diagnosis : Option String := match info with
    | none => none
    | some i => i.diagnosis
  let waiting_weight : ℚ := 1
  let diagnosis_weight : ℚ := 10
  let severity_score : ℚ := match diagnosis with
    | none => 0
    | some d => if d = "B1" then 3 else if d = "A2" then 2
        else if d = "A3" then 1 else 0
  let replanning_penalty : ℚ := if is_replan then 20 else 0
  waiting_weight * waiting_time + diagnosis_weight * severity_score +
    replanning_penalty

/-- Python dict insertion with insertion-order preservation (`priority_dict`
of `HeuristicPlanner.plan`): overwrite in place when the key exists, append
otherwise. -/
def HP.dictInsert (d : List (String × ℚ)) (k : String) (v : ℚ) :
    List (String × ℚ) :=
  if d.any (fun p => p.1 = k) then
    d.map (fun p => if p.1 = k then (k, v) else p)
  else d ++ [(k, v)]

/-- `sorted(priority_dict.items(), key=lambda x: x[1], reverse=True)`:
stable descending order on the priority value. -/
def HP.planOrder (a b : String × ℚ) : Prop := b.2 ≤ a.2

instance : DecidableRel HP.planOrder := fun a b => by
  unfold HP.planOrder
  infer_instance

/-- `HeuristicPlanner.plan` (lines 80-113): score every case (replans
overwrite plan entries of the same id in `priority_dict`), sort by descending
priority, then admit at `simulation_time + 24` above the 100 threshold and at
`simulation_time + 48` otherwise. -/
def HP.plan (st : HPState) (ctp ctr : List String) (t : ℚ) :
    List (String × ℚ) :=
  let d0 := ctp.foldl
    (fun d cid => HP.dictInsert d cid (HP.calculate_priority st cid t false)) []
  let d1 := ctr.foldl
    (fun d cid => HP.dictInsert d cid (HP.calculate_priority st cid t true)) d0
  let sorted := List.insertionSort HP.planOrder d1
  sorted.map (fun p => (p.1, if p.2 > 100 then t + 24 else t + 48))

/-- `HeuristicPlanner.schedule` (lines 115-183): no hour gate; weekday versus
weekend is decided from `(simulation_time % 168) // 24` and the corresponding
fixed seven-triple schedule (all at `+158` or `+168` hours) is returned. -/
def HP.schedule (t : ℚ) : List (ResourceType × ℚ × ℕ) :=
  let hour_of_week := pyMod t 168
  let dow := pyFloorDiv hour_of_week 24
  let is_weekday := dow < 5
  if is_weekday then
    [(ResourceType.OR, t + 158, 5),
     (ResourceType.A_BED, t + 158, 30),
     (ResourceType.B_BED, t + 158, 40),
     (ResourceType.INTAKE, t + 158, 4),
     (ResourceType.ER_PRACTITIONER, t + 158, 9),
     (ResourceType.OR, t + 168, 1),
     (ResourceType.INTAKE, t + 168, 1)]
  else
    [(ResourceType.OR, t + 158, 1),
     (ResourceType.A_BED, t + 158, 30),
     (ResourceType.B_BED, t + 158, 10),
     (ResourceType.INTAKE, t + 158, 1),
     (ResourceType.ER_PRACTITIONER, t + 158, 4),
     (ResourceType.OR, t + 168, 1),
     (ResourceType.INTAKE, t + 168, 1)]

/-! ## Supporting lemmas -/

/-- An id not stamped by the `last_replanned` fold keeps its previous value. -/
theorem foldl_updMap_notmem (t : ℚ) :
    ∀ (l : List (String × ℤ × ℚ)) (lr : String → Option ℚ) (cid : String),
      cid ∉ l.map (fun e => e.1) →
      (l.foldl (fun m p => updMap m p.1 t) lr) cid = lr cid := by
  intro l
  induction l with
  | nil => intro lr cid _; rfl
  | cons a rest ih =>
    intro lr cid h
    rw [List.foldl_cons]
    have h1 : cid ≠ a.1 := fun he => h (by simp [he])
    have h2 : cid ∉ rest.map (fun e => e.1) := fun hm => h (by simp [hm])
    rw [ih _ cid h2, updMap, if_neg h1]

/-- After the fold that stamps `last_replanned[case_id] = t` for every emitted
replan, a stamped id maps to `t`. -/
theorem foldl_updMap_mem (t : ℚ) :
    ∀ (l : List (String × ℤ × ℚ)) (lr : String → Option ℚ) (cid : String),
      cid ∈ l.map (fun e => e.1) →
      (l.foldl (fun m p => updMap m p.1 t) lr) cid = some t := by
  intro l
  induction l with
  | nil => intro lr cid h; simp at h
  | cons a rest ih =>
    intro lr cid h
    rw [List.foldl_cons]
    by_cases hr : cid ∈ rest.map (fun e => e.1)
    · exact ih _ cid hr
    · have hcid : cid = a.1 := by
        simp only [List.map_cons, List.mem_cons] at h
        rcases h with h1 | h1
        · exact h1
        · exact absurd h1 hr
      have hrest := foldl_updMap_notmem t rest (updMap lr a.1 t) cid hr
      rw [hrest, hcid, updMap, if_pos rfl]

/-- The `base_time` local after the `cases_to_plan` loop: still unassigned, or
`simulation_time + 24`. -/
theorem OP2.newLoop_bt (diag : String → Option String) (t : ℚ) :
    ∀ (l : List String) (fp : String → Option ℚ) (bt : Option ℚ)
      (td : Option ℤ) (acc : List (String × ℤ)),
      (OP2.newLoop diag t l fp bt td acc).2.1 = bt ∨
      (OP2.newLoop diag t l fp bt td acc).2.1 = some (t + 24) := by
  intro l
  induction l with
  | nil => intro fp bt td acc; left; rfl
  | cons cid rest ih =>
    intro fp bt td acc
    rw [OP2.newLoop]
    rcases ih (match fp cid with | none => updMap fp cid t | some _ => fp)
        (some (t + 24)) (some (OP2.targetDayFinal (day_of_week t)))
        (acc ++ [(cid, planNewPriority (OP2.targetDayFinal (day_of_week t))
          (diag cid))]) with h | h
    · right; exact h
    · right; exact h

/-- Every fresh-plan entry rounds a value clamped at `simulation_time + 24`. -/
theorem OP2.emitNew_mem (t : ℚ) (bt : Option ℚ) (nc : List (String × ℤ))
    (fresh : List (String × ℤ)) (h : OP2.emitNew t bt nc = .ok fresh)
    (p : String × ℤ) (hp : p ∈ fresh) :
    ∃ q : ℚ, t + 24 ≤ q ∧ p.2 = pyRound q := by
  unfold OP2.emitNew at h
  rcases nc with _ | ⟨a, l⟩
  · simp only [Except.ok.injEq] at h
    rw [← h] at hp
    simp at hp
  · rcases bt with _ | b
    · simp at h
    · simp only [Except.ok.injEq] at h
      rw [← h] at hp
      obtain ⟨e, _, hep⟩ := List.mem_map.mp hp
      refine ⟨max (if e.2.2 = 0 then b + (e.1 : ℚ) * (1/4)
        else if e.2.2 = 1 then b + 2 + (e.1 : ℚ) * (1/4)
        else b + 4 + (e.1 : ℚ) * (1/4)) (t + 24), le_max_right _ _, ?_⟩
      rw [← hep]

/-- Characterization of a successful replan emission: the emitted ids are the
ids of the first `min(35, len)` sorted candidates, every emitted time rounds
`base_time + i`, and the new `last_replanned` dict stamps exactly those ids. -/
theorem OP2.emitReplans_spec (t : ℚ) (bt : Option ℚ)
    (sorted : List (String × ℤ × ℚ)) (lr : String → Option ℚ)
    (rep : List (String × ℤ)) (lr' : String → Option ℚ)
    (h : OP2.emitReplans t bt sorted lr = .ok (rep, lr')) :
    rep.map Prod.fst = (sorted.take (min 35 sorted.length)).map (fun e => e.1) ∧
    lr' = (sorted.take (min 35 sorted.length)).foldl
      (fun m p => updMap m p.1 t) lr ∧
    ∀ p ∈ rep, ∃ (b : ℚ) (i : ℕ), bt = some b ∧ p.2 = pyRound (b + (i : ℚ)) := by
  unfold OP2.emitReplans at h
  rcases htk : sorted.take (min 35 sorted.length) with _ | ⟨a, l⟩
  · rw [htk] at h
    simp only [Except.ok.injEq, Prod.mk.injEq] at h
    obtain ⟨h1, h2⟩ := h
    subst h1
    subst h2
    exact ⟨rfl, rfl, fun p hp => absurd hp (List.not_mem_nil p)⟩
  · rw [htk] at h
    rcases bt with _ | b
    · simp at h
    · simp only [Except.ok.injEq, Prod.mk.injEq] at h
      obtain ⟨h1, h2⟩ := h
      subst h1
      subst h2
      refine ⟨?_, rfl, ?_⟩
      · rw [List.map_map]
        have h3 : (Prod.fst ∘ fun p : ℕ × String × ℤ × ℚ =>
            ((p.2.1 : String), pyRound (b + (p.1 : ℚ))))
            = (fun e : String × ℤ × ℚ => e.1) ∘ Prod.snd := rfl
        rw [h3, ← List.map_map, List.enum_map_snd]
      · intro p hp
        obtain ⟨e, _, hep⟩ := List.mem_map.mp hp
        exact ⟨b, e.1, rfl, by rw [← hep]⟩

/-- Every candidate surviving the replan loop passed the 24-hour cooldown test
against `last_replanned.get(case_id, 0)`. -/
theorem OP2.replanLoop_guard (diag : String → Option String)
    (fp lr : String → Option ℚ) (td : Option ℤ) (t : ℚ) :
    ∀ (ctr : List String) (cands : List (String × ℤ × ℚ))
      (e : String × ℤ × ℚ),
      OP2.replanLoop diag fp lr td t ctr = .ok cands → e ∈ cands →
      24 ≤ t - ((lr e.1).getD 0) := by
  intro ctr
  induction ctr with
  | nil =>
    intro cands e h he
    simp only [OP2.replanLoop, Except.ok.injEq] at h
    rw [← h] at he
    simp at he
  | cons cid rest ih =>
    intro cands e h he
    simp only [OP2.replanLoop] at h
    by_cases hcool : t - ((lr cid).getD 0) < 24
    · rw [if_pos hcool] at h
      exact ih cands e h he
    · rw [if_neg hcool] at h
      rcases td with _ | d
      · simp at h
      · rcases hrec : OP2.replanLoop diag fp lr (some d) t rest with _ | l
        · rw [hrec] at h; simp at h
        · rw [hrec] at h
          simp only [Except.ok.injEq] at h
          rw [← h] at he
          rcases List.mem_cons.mp he with h1 | h1
          · rw [h1]
            exact le_of_not_lt hcool
          · exact ih l e hrec h1

/-- A call that emits `cid` in its replanning portion stamps
`last_replanned[cid] = simulation_time`, and the pre-call state passed the
24-hour cooldown test for `cid`. -/
theorem OP2.replanEmitted_step (st : OP2State) (c : Call) (cid : String)
    (h : OP2.replanEmitted st c cid) :
    (OP2.step st c).last_replanned cid = some c.t ∧
    24 ≤ c.t - ((st.last_replanned cid).getD 0) := by
  obtain ⟨fresh, rep, hok, hmem⟩ := h
  unfold OP2.step
  simp only [OP2.planSplit] at hok ⊢
  rcases hEN : OP2.emitNew c.t (OP2.newRes st c.ctp c.t).2.1
      (OP2.newRes st c.ctp c.t).2.2.2 with _ | fr
  · rw [hEN] at hok; simp at hok
  · rw [hEN] at hok
    dsimp only at hok ⊢
    rcases hRL : OP2.replanLoop st.patient_diagnoses (OP2.newRes st c.ctp c.t).1
        st.last_replanned (OP2.newRes st c.ctp c.t).2.2.1 c.t c.ctr with _ | cands
    · rw [hRL] at hok; simp at hok
    · rw [hRL] at hok
      dsimp only at hok ⊢
      rcases hER : OP2.emitReplans c.t (OP2.newRes st c.ctp c.t).2.1
          (List.insertionSort OP2.replanOrder cands) st.last_replanned
          with _ | pr
      · rw [hER] at hok; simp at hok
      · rw [hER] at hok
        dsimp only at hok ⊢
        simp only [Except.ok.injEq, Prod.mk.injEq] at hok
        obtain ⟨hfr, hrep⟩ := hok
        obtain ⟨hids, hlr, _⟩ := OP2.emitReplans_spec _ _ _ _ _ _ hER
        have hmem' : cid ∈ ((List.insertionSort OP2.replanOrder cands).take
            (min 35 (List.insertionSort OP2.replanOrder cands).length)).map
            (fun e => e.1) := by
          rw [← hids, hrep]
          exact hmem
        constructor
        · rw [hlr]
          exact foldl_updMap_mem c.t _ _ cid hmem'
        · obtain ⟨e, he, hecid⟩ := List.mem_map.mp hmem'
          have he1 : e ∈ List.insertionSort OP2.replanOrder cands :=
            List.take_subset _ _ he
          have he2 : e ∈ cands :=
            (List.perm_insertionSort OP2.replanOrder cands).mem_iff.mp he1
          have := OP2.replanLoop_guard st.patient_diagnoses
            (OP2.newRes st c.ctp c.t).1 st.last_replanned
            (OP2.newRes st c.ctp c.t).2.2.1 c.t c.ctr cands e hRL he2
          rw [hecid] at this
          exact this

/-- One `plan` call either leaves `last_replanned[cid]` unchanged or stamps it
with the call's simulation time. -/
theorem OP2.step_lr (st : OP2State) (c : Call) (cid : String) :
    (OP2.step st c).last_replanned cid = st.last_replanned cid ∨
    (OP2.step st c).last_replanned cid = some c.t := by
  unfold OP2.step
  simp only [OP2.planSplit]
  rcases hEN : OP2.emitNew c.t (OP2.newRes st c.ctp c.t).2.1
      (OP2.newRes st c.ctp c.t).2.2.2 with _ | fr
  · left; rfl
  · dsimp only
    rcases hRL : OP2.replanLoop st.patient_diagnoses (OP2.newRes st c.ctp c.t).1
        st.last_replanned (OP2.newRes st c.ctp c.t).2.2.1 c.t c.ctr with _ | cands
    · left; rfl
    · dsimp only
      rcases hER : OP2.emitReplans c.t (OP2.newRes st c.ctp c.t).2.1
          (List.insertionSort OP2.replanOrder cands) st.last_replanned
          with _ | pr
      · left; rfl
      · dsimp only
        obtain ⟨_, hlr, _⟩ := OP2.emitReplans_spec _ _ _ _ _ _ hER
        by_cases hm : cid ∈ ((List.insertionSort OP2.replanOrder cands).take
            (min 35 (List.insertionSort OP2.replanOrder cands).length)).map
            (fun e => e.1)
        · right
          show pr.2 cid = some c.t
          rw [hlr]
          exact foldl_updMap_mem c.t _ _ cid hm
        · left
          show pr.2 cid = st.last_replanned cid
          rw [hlr]
          exact foldl_updMap_notmem c.t _ _ cid hm

/-- Once `last_replanned[cid]` holds a time at least `T`, it keeps holding a
time at least `T` across any further calls whose times are at least `T`. -/
theorem OP2.runCalls_lr_lb (cid : String) (T : ℚ) :
    ∀ (cs : List Call) (st : OP2State) (u : ℚ),
      st.last_replanned cid = some u → T ≤ u → (∀ c ∈ cs, T ≤ c.t) →
      ∃ v, (OP2.runCalls st cs).last_replanned cid = some v ∧ T ≤ v := by
  intro cs
  induction cs with
  | nil => intro st u h hT _; exact ⟨u, h, hT⟩
  | cons c rest ih =>
    intro st u h hT hall
    have hrun : OP2.runCalls st (c :: rest) = OP2.runCalls (OP2.step st c) rest := rfl
    rw [hrun]
    rcases OP2.step_lr st c cid with hs | hs
    · exact ih (OP2.step st c) u (hs.trans h) hT
        (fun d hd => hall d (List.mem_cons_of_mem c hd))
    · exact ih (OP2.step st c) c.t hs (hall c (List.mem_cons_self c rest))
        (fun d hd => hall d (List.mem_cons_of_mem c hd))

/-- Every candidate surviving `OptimizedPlanner.plan`'s replan loop passed
the 24-hour cooldown test against `last_replanned.get(case_id, 0)`. -/
theorem OP1.replanLoop_cooldown (diag : String → Option String)
    (fp lr : String → Option ℚ) (td : ℤ) (t : ℚ) :
    ∀ (ctr : List String) (e : String × ℤ × ℚ),
      e ∈ OP1.replanLoop diag fp lr td t ctr →
      24 ≤ t - ((lr e.1).getD 0) := by
  intro ctr
  induction ctr with
  | nil =>
    intro e he
    simp [OP1.replanLoop] at he
  | cons cid rest ih =>
    intro e he
    simp only [OP1.replanLoop] at he
    by_cases hcool : t - ((lr cid).getD 0) < 24
    · rw [if_pos hcool] at he
      exact ih e he
    · rw [if_neg hcool] at he
      rcases List.mem_cons.mp he with h1 | h1
      · rw [h1]
        exact le_of_not_lt hcool
      · exact ih e h1

/-- Every replan actually emitted by `OptimizedPlanner.plan` (a member of the
sorted, capped candidate list) passed the cooldown test. -/
theorem OP1.replanTaken_guard (st : OP2State) (ctp ctr : List String) (t : ℚ)
    (e : String × ℤ × ℚ) (he : e ∈ OP1.replanTaken st ctp ctr t) :
    24 ≤ t - ((st.last_replanned e.1).getD 0) := by
  unfold OP1.replanTaken at he
  have he1 := List.take_subset _ _ he
  have he2 := (List.perm_insertionSort OP2.replanOrder _).mem_iff.mp he1
  exact OP1.replanLoop_cooldown st.patient_diagnoses (OP1.fpRes st ctp t)
    st.last_replanned (OP2.targetDayFinal (day_of_week t)) t ctr e he2

/-- A call of `OptimizedPlanner.plan` that emits `cid` in its replanning
portion stamps `last_replanned[cid] = simulation_time`, and the pre-call
state passed the 24-hour cooldown test for `cid`. -/
theorem OP1.replanEmitted_stamp (st : OP2State) (c : Call) (cid : String)
    (h : OP1.replanEmitted st c cid) :
    (OP1.step st c).last_replanned cid = some c.t ∧
    24 ≤ c.t - ((st.last_replanned cid).getD 0) := by
  obtain ⟨fresh, rep, hok, hmem⟩ := h
  unfold OP1.step
  simp only [OP1.planSplit] at hok ⊢
  rcases hlast : c.ctp.getLast? with _ | lastCase
  · rw [hlast] at hok
    simp at hok
  · rw [hlast] at hok
    dsimp only at hok ⊢
    simp only [Except.ok.injEq, Prod.mk.injEq] at hok
    obtain ⟨hfr, hrep⟩ := hok
    have hids : rep.map Prod.fst
        = (OP1.replanTaken st c.ctp c.ctr c.t).map (fun e => e.1) := by
      rw [← hrep, List.map_map]
      have h3 : (Prod.fst ∘ fun p : ℕ × String × ℤ × ℚ =>
          ((p.2.1 : String), pyRound (c.t + 24 + (p.1 : ℚ))))
          = (fun e : String × ℤ × ℚ => e.1) ∘ Prod.snd := rfl
      rw [h3, ← List.map_map, List.enum_map_snd]
    have hm : cid ∈ (OP1.replanTaken st c.ctp c.ctr c.t).map (fun e => e.1) := by
      rw [← hids]
      exact hmem
    constructor
    · exact foldl_updMap_mem c.t _ _ cid hm
    · obtain ⟨e, he, hecid⟩ := List.mem_map.mp hm
      have hg := OP1.replanTaken_guard st c.ctp c.ctr c.t e he
      rw [hecid] at hg
      exact hg

/-- One `OptimizedPlanner.plan` call either leaves `last_replanned[cid]`
unchanged or stamps it with the call's simulation time. -/
theorem OP1.lr_step (st : OP2State) (c : Call) (cid : String) :
    (OP1.step st c).last_replanned cid = st.last_replanned cid ∨
    (OP1.step st c).last_replanned cid = some c.t := by
  unfold OP1.step
  simp only [OP1.planSplit]
  rcases hlast : c.ctp.getLast? with _ | lastCase
  · left
    rfl
  · dsimp only
    by_cases hm : cid ∈ (OP1.replanTaken st c.ctp c.ctr c.t).map (fun e => e.1)
    · right
      exact foldl_updMap_mem c.t _ _ cid hm
    · left
      exact foldl_updMap_notmem c.t _ _ cid hm

/-- Once `last_replanned[cid]` holds a time at least `T`, it keeps holding a
time at least `T` across any further `OptimizedPlanner.plan` calls whose
times are at least `T`. -/
theorem OP1.runCalls_lr_bound (cid : String) (T : ℚ) :
    ∀ (cs : List Call) (st : OP2State) (u : ℚ),
      st.last_replanned cid = some u → T ≤ u → (∀ c ∈ cs, T ≤ c.t) →
      ∃ v, (OP1.runCalls st cs).last_replanned cid = some v ∧ T ≤ v := by
  intro cs
  induction cs with
  | nil =>
    intro st u h hT _
    exact ⟨u, h, hT⟩
  | cons c rest ih =>
    intro st u h hT hall
    have hrun : OP1.runCalls st (c :: rest)
        = OP1.runCalls (OP1.step st c) rest := rfl
    rw [hrun]
    rcases OP1.lr_step st c cid with hs | hs
    · exact ih (OP1.step st c) u (hs.trans h) hT
        (fun d hd => hall d (List.mem_cons_of_mem c hd))
    · exact ih (OP1.step st c) c.t hs (hall c (List.mem_cons_self c rest))
        (fun d hd => hall d (List.mem_cons_of_mem c hd))

/-! ## Claim C3 -/

/-- Claim C3: across every sequence of `plan` calls with monotonically
non-decreasing simulation times, no case id appears in the replan-emitted
portion of the output of two calls whose simulation times differ by less than
24 hours — in `OptimizedPlanner2.0` (first conjunct) and in
`OptimizedPlanner` (second conjunct). -/
theorem replan_cooldown :
    (∀ (st : OP2State) (pre mid post : List Call) (c1 c2 : Call)
      (cid : String),
      List.Pairwise (fun a b => a.t ≤ b.t) (pre ++ c1 :: (mid ++ c2 :: post)) →
      OP2.replanEmitted (OP2.runCalls st pre) c1 cid →
      OP2.replanEmitted (OP2.runCalls st (pre ++ c1 :: mid)) c2 cid →
      c1.t + 24 ≤ c2.t) ∧
    (∀ (st : OP2State) (pre mid post : List Call) (c1 c2 : Call)
      (cid : String),
      List.Pairwise (fun a b => a.t ≤ b.t) (pre ++ c1 :: (mid ++ c2 :: post)) →
      OP1.replanEmitted (OP1.runCalls st pre) c1 cid →
      OP1.replanEmitted (OP1.runCalls st (pre ++ c1 :: mid)) c2 cid →
      c1.t + 24 ≤ c2.t) := by
  constructor
  · intro st pre mid post c1 c2 cid hmono h1 h2
    have hsub : (c1 :: (mid ++ c2 :: post)).Sublist
        (pre ++ c1 :: (mid ++ c2 :: post)) :=
      List.sublist_append_right pre _
    have hp := List.Pairwise.sublist hsub hmono
    have hp2 := List.pairwise_cons.mp hp
    have e1 := OP2.replanEmitted_step (OP2.runCalls st pre) c1 cid h1
    have hrw : OP2.runCalls st (pre ++ c1 :: mid)
        = OP2.runCalls (OP2.step (OP2.runCalls st pre) c1) mid := by
      unfold OP2.runCalls
      rw [List.foldl_append, List.foldl_cons]
    obtain ⟨v, hv, hvT⟩ := OP2.runCalls_lr_lb cid c1.t mid
      (OP2.step (OP2.runCalls st pre) c1) c1.t e1.1 le_rfl
      (fun c hc => hp2.1 c (List.mem_append_left _ hc))
    have e2 := (OP2.replanEmitted_step (OP2.runCalls st (pre ++ c1 :: mid))
      c2 cid h2).2
    rw [hrw, hv] at e2
    rw [Option.getD_some] at e2
    linarith
  · intro st pre mid post c1 c2 cid hmono h1 h2
    have hsub : (c1 :: (mid ++ c2 :: post)).Sublist
        (pre ++ c1 :: (mid ++ c2 :: post)) :=
      List.sublist_append_right pre _
    have hp := List.Pairwise.sublist hsub hmono
    have hp2 := List.pairwise_cons.mp hp
    have e1 := OP1.replanEmitted_stamp (OP1.runCalls st pre) c1 cid h1
    have hrw : OP1.runCalls st (pre ++ c1 :: mid)
        = OP1.runCalls (OP1.step (OP1.runCalls st pre) c1) mid := by
      unfold OP1.runCalls
      rw [List.foldl_append, List.foldl_cons]
    obtain ⟨v, hv, hvT⟩ := OP1.runCalls_lr_bound cid c1.t mid
      (OP1.step (OP1.runCalls st pre) c1) c1.t e1.1 le_rfl
      (fun c hc => hp2.1 c (List.mem_append_left _ hc))
    have e2 := (OP1.replanEmitted_stamp (OP1.runCalls st (pre ++ c1 :: mid))
      c2 cid h2).2
    rw [hrw, hv] at e2
    rw [Option.getD_some] at e2
    linarith

unseal Rat.add Rat.sub Rat.mul Rat.inv in
/-- Witness for C3: case C2 is replan-emitted at time 200 and again at time
225 on a fresh planner — by both `OptimizedPlanner2.0` and
`OptimizedPlanner` — and the two times are at least 24 apart. -/
theorem replan_cooldown_witness :
    List.Pairwise (fun a b : Call => a.t ≤ b.t)
      [⟨["D"], ["C2"], 200⟩, ⟨["D"], ["C2"], 225⟩] ∧
    (OP2.replanEmitted OP2.freshState ⟨["D"], ["C2"], 200⟩ ("C2") ∧
      OP2.replanEmitted (OP2.runCalls OP2.freshState [⟨["D"], ["C2"], 200⟩])
        ⟨["D"], ["C2"], 225⟩ ("C2")) ∧
    (OP1.replanEmitted OP2.freshState ⟨["D"], ["C2"], 200⟩ ("C2") ∧
      OP1.replanEmitted (OP1.runCalls OP2.freshState [⟨["D"], ["C2"], 200⟩])
        ⟨["D"], ["C2"], 225⟩ ("C2")) ∧
    (200 : ℚ) + 24 ≤ 225 ∧ (200 : ℚ) + 24 ≤ 225 := by
  have h1 : OP2.replanEmitted OP2.freshState ⟨["D"], ["C2"], 200⟩ ("C2") :=
    ⟨[(("D"), 228)], [(("C2"), 224)], by decide, by decide⟩
  have h2 : OP2.replanEmitted
      (OP2.runCalls OP2.freshState [⟨["D"], ["C2"], 200⟩])
      ⟨["D"], ["C2"], 225⟩ ("C2") :=
    ⟨[(("D"), 253)], [(("C2"), 249)], by decide, by decide⟩
  have h3 : OP1.replanEmitted OP2.freshState ⟨["D"], ["C2"], 200⟩ ("C2") :=
    ⟨[(("D"), 228)], [(("C2"), 224)], by decide, by decide⟩
  have h4 : OP1.replanEmitted
      (OP1.runCalls OP2.freshState [⟨["D"], ["C2"], 200⟩])
      ⟨["D"], ["C2"], 225⟩ ("C2") :=
    ⟨[(("D"), 253)], [(("C2"), 249)], by decide, by decide⟩
  have hpair : List.Pairwise (fun a b : Call => a.t ≤ b.t)
      [⟨["D"], ["C2"], 200⟩, ⟨["D"], ["C2"], 225⟩] := by
    refine List.Pairwise.cons ?_ (List.pairwise_singleton _ _)
    intro b hb
    rw [List.mem_singleton.mp hb]
    norm_num
  exact ⟨hpair, ⟨h1, h2⟩, ⟨h3, h4⟩,
    replan_cooldown.1 OP2.freshState [] [] [] ⟨["D"], ["C2"], 200⟩
      ⟨["D"], ["C2"], 225⟩ ("C2") hpair h1 h2,
    replan_cooldown.2 OP2.freshState [] [] [] ⟨["D"], ["C2"], 200⟩
      ⟨["D"], ["C2"], 225⟩ ("C2") hpair h3 h4⟩

/-! ## Schedule lemmas -/

/-- Every triple emitted by one capacity block carries the block's time, a
count drawn from the table, and — inside the near horizon — passed the
strictly-increasing test against `get_current`. -/
theorem OP2.applyBlock_mem (cutoff time : ℚ) (tbl : List (ResourceType × ℕ))
    (x : ResourceType × ℚ × ℕ) (hx : x ∈ OP2.applyBlock cutoff time tbl) :
    x.2.1 = time ∧ (x.1, x.2.2) ∈ tbl ∧
    (time < cutoff → OP2.get_current time x.1 < x.2.2) := by
  unfold OP2.applyBlock at hx
  rw [List.mem_flatMap] at hx
  obtain ⟨p, hp, hxp⟩ := hx
  by_cases h1 : time < cutoff
  · rw [if_pos h1] at hxp
    by_cases h2 : OP2.get_current time p.1 < p.2
    · rw [if_pos h2, List.mem_singleton] at hxp
      subst hxp
      exact ⟨rfl, by simpa using hp, fun _ => h2⟩
    · rw [if_neg h2] at hxp
      simp at hxp
  · rw [if_neg h1, List.mem_singleton] at hxp
    subst hxp
    exact ⟨rfl, by simpa using hp, fun h => absurd h h1⟩

/-- Every triple emitted by `OptimizedPlanner2.0.schedule` comes from one of
the four capacity tables through `applyBlock` with cutoff `t + 158`. -/
theorem OP2.schedule_mem (t : ℚ) (x : ResourceType × ℚ × ℕ)
    (hx : x ∈ OP2.schedule t) :
    ∃ time tbl,
      (tbl = OP2.weekdayMorning ∨ tbl = OP2.weekdayAfternoon ∨
       tbl = OP2.weekendMorning ∨ tbl = OP2.weekendAfternoon) ∧
      x ∈ OP2.applyBlock (t + 158) time tbl := by
  unfold OP2.schedule at hx
  split at hx
  · simp at hx
  · simp only [List.mem_flatMap] at hx
    obtain ⟨off, _, hxo⟩ := hx
    split at hxo
    · rcases List.mem_append.mp hxo with h | h
      · exact ⟨_, _, Or.inl rfl, h⟩
      · exact ⟨_, _, Or.inr (Or.inl rfl), h⟩
    · rcases List.mem_append.mp hxo with h | h
      · exact ⟨_, _, Or.inr (Or.inr (Or.inl rfl)), h⟩
      · exact ⟨_, _, Or.inr (Or.inr (Or.inr rfl)), h⟩

/-- Every entry of every capacity table is within the authoritative maximum of
its resource type, which is also the `get_current` fallback value. -/
theorem OP2.table_le_max (tbl : List (ResourceType × ℕ))
    (htbl : tbl = OP2.weekdayMorning ∨ tbl = OP2.weekdayAfternoon ∨
      tbl = OP2.weekendMorning ∨ tbl = OP2.weekendAfternoon)
    (p : ResourceType × ℕ) (hp : p ∈ tbl) :
    p.2 ≤ resourceMax p.1 ∧ p.2 ≤ OP2.default_max p.1 := by
  rcases htbl with h | h | h | h <;> subst h <;> fin_cases hp <;>
    exact ⟨by decide, by decide⟩

/-- OP1 variant of the block-membership lemma: near-horizon triples passed
the strictly-increasing test against the simulator-backed `get_current`. -/
theorem OP1.applyBlock_elem (sim : Option (ℚ → ResourceType → ℕ))
    (cutoff time : ℚ) (tbl : List (ResourceType × ℕ))
    (x : ResourceType × ℚ × ℕ) (hx : x ∈ OP1.applyBlock sim cutoff time tbl) :
    x.2.1 = time ∧ (x.1, x.2.2) ∈ tbl ∧
    (time < cutoff → OP1.get_current sim time x.1 < x.2.2) := by
  unfold OP1.applyBlock at hx
  rw [List.mem_flatMap] at hx
  obtain ⟨p, hp, hxp⟩ := hx
  by_cases h1 : time < cutoff
  · rw [if_pos h1] at hxp
    by_cases h2 : OP1.get_current sim time p.1 < p.2
    · rw [if_pos h2, List.mem_singleton] at hxp
      subst hxp
      exact ⟨rfl, by simpa using hp, fun _ => h2⟩
    · rw [if_neg h2] at hxp
      simp at hxp
  · rw [if_neg h1, List.mem_singleton] at hxp
    subst hxp
    exact ⟨rfl, by simpa using hp, fun h => absurd h h1⟩

/-- Every triple emitted by `OptimizedPlanner.schedule` comes from one of the
four capacity tables through its block with cutoff `t + 158`. -/
theorem OP1.schedule_elem (sim : Option (ℚ → ResourceType → ℕ)) (t : ℚ)
    (x : ResourceType × ℚ × ℕ) (hx : x ∈ OP1.schedule sim t) :
    ∃ time tbl,
      (tbl = OP2.weekdayMorning ∨ tbl = OP2.weekdayAfternoon ∨
       tbl = OP2.weekendMorning ∨ tbl = OP2.weekendAfternoon) ∧
      x ∈ OP1.applyBlock sim (t + 158) time tbl := by
  unfold OP1.schedule at hx
  split at hx
  · simp at hx
  · simp only [List.mem_flatMap] at hx
    obtain ⟨off, _, hxo⟩ := hx
    split at hxo
    · rcases List.mem_append.mp hxo with h | h
      · exact ⟨_, _, Or.inl rfl, h⟩
      · exact ⟨_, _, Or.inr (Or.inl rfl), h⟩
    · rcases List.mem_append.mp hxo with h | h
      · exact ⟨_, _, Or.inr (Or.inr (Or.inl rfl)), h⟩
      · exact ⟨_, _, Or.inr (Or.inr (Or.inr rfl)), h⟩

/-! ## Claim C2 -/

/-- Claim C2: every capacity triple emitted inside the near horizon
(`effective_time < simulation_time + 158`) has a count at least the currently
authoritative scheduled count: in `OptimizedPlanner2.0` the `count >
get_current` guard enforces this, and `HeuristicPlanner` never emits inside
the near horizon at all. -/
theorem schedule_near_horizon_monotone (t : ℚ) :
    (((OP2.schedule t).all fun x =>
      !(decide (x.2.1 < t + 158)) || decide (OP2.get_current x.2.1 x.1 ≤ x.2.2))
      = true) ∧
    (∀ sim : Option (ℚ → ResourceType → ℕ),
      ((OP1.schedule sim t).all fun x =>
        !(decide (x.2.1 < t + 158)) ||
          decide (OP1.get_current sim x.2.1 x.1 ≤ x.2.2)) = true) ∧
    (((HP.schedule t).all fun x => !(decide (x.2.1 < t + 158))) = true) := by
  refine ⟨?_, ?_, ?_⟩
  · rw [List.all_eq_true]
    intro x hx
    obtain ⟨time, tbl, _, hab⟩ := OP2.schedule_mem t x hx
    obtain ⟨hxt, _, hguard⟩ := OP2.applyBlock_mem _ _ _ _ hab
    by_cases hnear : x.2.1 < t + 158
    · have hlt := hguard (by rw [← hxt]; exact hnear)
      have : OP2.get_current x.2.1 x.1 ≤ x.2.2 := by
        unfold OP2.get_current at hlt ⊢
        omega
      simp [this]
    · simp [hnear]
  · intro sim
    rw [List.all_eq_true]
    intro x hx
    obtain ⟨time, tbl, _, hab⟩ := OP1.schedule_elem sim t x hx
    obtain ⟨hxt, _, hguard⟩ := OP1.applyBlock_elem _ _ _ _ _ hab
    by_cases hnear : x.2.1 < t + 158
    · have hlt := hguard (by rw [← hxt]; exact hnear)
      have hge : OP1.get_current sim x.2.1 x.1 ≤ x.2.2 := by
        rw [hxt]
        omega
      simp [hge]
    · simp [hnear]
  · rw [List.all_eq_true]
    intro x hx
    simp only [HP.schedule] at hx
    split at hx <;> fin_cases hx <;>
      simp only [Bool.not_eq_true', decide_eq_false_iff_not] <;>
        intro hcc <;> linarith

/-! ## Claim C10 -/

/-- Claim C10: in `OptimizedPlanner2.0`, at the designated hour every emitted
triple has `effective_time ≥ simulation_time + 158` — the `get_current`
fallback always answers the per-type maximum, every table count is at most
that maximum, and the strictly-greater test therefore suppresses every
near-horizon emission. -/
theorem OP2_no_near_horizon_emission (t : ℚ) (hh : hour_of_day t = 18) :
    ((OP2.schedule t).all fun x => decide (t + 158 ≤ x.2.1)) = true := by
  clear hh
  rw [List.all_eq_true]
  intro x hx
  obtain ⟨time, tbl, htbl, hab⟩ := OP2.schedule_mem t x hx
  obtain ⟨hxt, hmem, hguard⟩ := OP2.applyBlock_mem _ _ _ _ hab
  rw [decide_eq_true_eq]
  by_contra hlt
  push_neg at hlt
  have hg := hguard (by rw [← hxt]; exact hlt)
  have hle := (OP2.table_le_max tbl htbl (x.1, x.2.2) hmem).2
  unfold OP2.get_current at hg
  exact absurd hg (by simpa using hle)

unseal Rat.add Rat.sub Rat.mul Rat.inv in
/-- Witness for C10 at `simulation_time = 18` (hour-of-day 18). -/
theorem OP2_no_near_horizon_emission_witness :
    hour_of_day 18 = 18 ∧
    ((OP2.schedule 18).all fun x => decide ((18 : ℚ) + 158 ≤ x.2.1)) = true := by
  have hh : hour_of_day 18 = 18 := by decide
  exact ⟨hh, OP2_no_near_horizon_emission 18 hh⟩

/-! ## Claim C6 -/

/-- Claim C6: every capacity triple emitted by `OptimizedPlanner2.0.schedule`
or `HeuristicPlanner.schedule` satisfies `0 ≤ count ≤ max(resource_type)`
with maxima operating-room 5, bed-class-A 30, bed-class-B 40, intake-slot 4,
ER-practitioner 9; in particular no `(operating-room, t, n)` with `n > 5` is
emitted. -/
theorem schedule_capacity_caps (t : ℚ) :
    (((OP2.schedule t).all fun x =>
      decide (0 ≤ x.2.2 ∧ x.2.2 ≤ resourceMax x.1)) = true) ∧
    (((HP.schedule t).all fun x =>
      decide (0 ≤ x.2.2 ∧ x.2.2 ≤ resourceMax x.1)) = true) := by
  constructor
  · rw [List.all_eq_true]
    intro x hx
    obtain ⟨time, tbl, htbl, hab⟩ := OP2.schedule_mem t x hx
    obtain ⟨_, hmem, _⟩ := OP2.applyBlock_mem _ _ _ _ hab
    have hle := (OP2.table_le_max tbl htbl (x.1, x.2.2) hmem).1
    rw [decide_eq_true_eq]
    exact ⟨Nat.zero_le _, hle⟩
  · rw [List.all_eq_true]
    intro x hx
    simp only [HP.schedule] at hx
    split at hx <;> fin_cases hx <;> rfl

/-! ## Claim C7 -/

unseal Rat.add Rat.sub Rat.mul Rat.inv in
/-- Counterexample to C7 as stated: `HeuristicPlanner.schedule` is cited by
the claim but has no hour gate — at `simulation_time = 0` (hour-of-day 0, not
the designated 18:00) it still returns a non-empty schedule. -/
theorem HP_schedule_ignores_hour_cex :
    hour_of_day 0 ≠ 18 ∧ HP.schedule 0 ≠ [] := by
  constructor
  · decide
  · decide

/-- Claim C7 (amended): in `OptimizedPlanner2.0` and `OptimizedPlanner`,
calling `schedule` at a simulation time whose hour-of-day is not 18 returns
the empty list and leaves all planner state (diagnoses, first-plan times,
last-replan times) unchanged; `HeuristicPlanner.schedule` is not hour-gated. -/
theorem OP2_schedule_offhour_noop (st : OP2State) (t : ℚ)
    (h : hour_of_day t ≠ 18) :
    OP2.scheduleS st t = ([], st) ∧
    ∀ sim : Option (ℚ → ResourceType → ℕ), OP1.schedule sim t = [] := by
  constructor
  · unfold OP2.scheduleS OP2.schedule
    rw [if_pos h]
  · intro sim
    unfold OP1.schedule
    rw [if_pos h]

unseal Rat.add Rat.sub Rat.mul Rat.inv in
/-- Witness for the amended C7 at `simulation_time = 0` on a fresh planner. -/
theorem OP2_schedule_offhour_noop_witness :
    hour_of_day 0 ≠ 18 ∧
    OP2.scheduleS OP2.freshState 0 = ([], OP2.freshState) ∧
    OP1.schedule none 0 = [] := by
  have hh : hour_of_day 0 ≠ 18 := by decide
  exact ⟨hh, (OP2_schedule_offhour_noop OP2.freshState 0 hh).1,
    (OP2_schedule_offhour_noop OP2.freshState 0 hh).2 none⟩

/-! ## Claim C1 -/

/-- Every entry of a successful `plan` call (fresh or replanned portion)
rounds a value that is at least `simulation_time + 24`. -/
theorem OP2.planSplit_entry_round (st : OP2State) (ctp ctr : List String)
    (t : ℚ) (fresh rep : List (String × ℤ))
    (hok : (OP2.planSplit st ctp ctr t).1 = .ok (fresh, rep)) :
    ∀ p ∈ fresh ++ rep, ∃ q : ℚ, t + 24 ≤ q ∧ p.2 = pyRound q := by
  simp only [OP2.planSplit] at hok
  rcases hEN : OP2.emitNew t (OP2.newRes st ctp t).2.1
      (OP2.newRes st ctp t).2.2.2 with _ | fr
  · rw [hEN] at hok; simp at hok
  · rw [hEN] at hok
    dsimp only at hok
    rcases hRL : OP2.replanLoop st.patient_diagnoses (OP2.newRes st ctp t).1
        st.last_replanned (OP2.newRes st ctp t).2.2.1 t ctr with _ | cands
    · rw [hRL] at hok; simp at hok
    · rw [hRL] at hok
      dsimp only at hok
      rcases hER : OP2.emitReplans t (OP2.newRes st ctp t).2.1
          (List.insertionSort OP2.replanOrder cands) st.last_replanned
          with _ | pr
      · rw [hER] at hok; simp at hok
      · rw [hER] at hok
        dsimp only at hok
        simp only [Except.ok.injEq, Prod.mk.injEq] at hok
        obtain ⟨hfr, hrep⟩ := hok
        intro p hp
        rcases List.mem_append.mp hp with hpf | hpr
        · exact OP2.emitNew_mem t _ _ fr hEN p (by rw [hfr]; exact hpf)
        · obtain ⟨_, _, hval⟩ := OP2.emitReplans_spec _ _ _ _ _ _ hER
          obtain ⟨b, i, hbt, hpv⟩ := hval p (by rw [hrep]; exact hpr)
          have hb := OP2.newLoop_bt st.patient_diagnoses t ctp
            st.patient_first_plan none none []
          rw [show OP2.newLoop st.patient_diagnoses t ctp st.patient_first_plan
              none none [] = OP2.newRes st ctp t from rfl] at hb
          rcases hb with hbn | hbs
          · rw [hbn] at hbt; simp at hbt
          · rw [hbs] at hbt
            have hb2 : t + 24 = b := by injection hbt
            refine ⟨b + (i : ℚ), ?_, hpv⟩
            rw [← hb2]
            have : (0 : ℚ) ≤ (i : ℚ) := Nat.cast_nonneg i
            linarith

/-- Claim C1 (amended): for `OptimizedPlanner2.0`, every emitted pair
satisfies `admission_time ≥ simulation_time + 24` whenever `simulation_time`
is an integer (for non-integer times Python's `round` can emit up to half an
hour earlier); `HeuristicPlanner.plan` satisfies the bound for every rational
`simulation_time`. -/
theorem plan_min_lead_time :
    (∀ (st : OP2State) (ctp ctr : List String) (n : ℤ)
      (out : List (String × ℤ)),
      (OP2.plan st ctp ctr (n : ℚ)).1 = .ok out →
      ∀ p ∈ out, n + 24 ≤ p.2) ∧
    (∀ (st : HPState) (ctp ctr : List String) (t : ℚ),
      ∀ p ∈ HP.plan st ctp ctr t, t + 24 ≤ p.2) := by
  constructor
  · intro st ctp ctr n out hok p hp
    unfold OP2.plan at hok
    rcases hps : OP2.planSplit st ctp ctr (n : ℚ) with ⟨res, st2⟩
    rw [hps] at hok
    rcases res with e | pr
    · simp at hok
    · dsimp only at hok
      simp only [Except.ok.injEq] at hok
      have hsplit : (OP2.planSplit st ctp ctr (n : ℚ)).1 = .ok (pr.1, pr.2) := by
        rw [hps]
      obtain ⟨q, hq, hpq⟩ := OP2.planSplit_entry_round st ctp ctr (n : ℚ)
        pr.1 pr.2 hsplit p (by rw [hok]; exact hp)
      rw [hpq]
      refine pyRound_ge (n + 24) q ?_
      push_cast
      exact hq
  · intro st ctp ctr t p hp
    simp only [HP.plan] at hp
    obtain ⟨e, _, hep⟩ := List.mem_map.mp hp
    rw [← hep]
    dsimp only
    split
    · linarith
    · linarith

unseal Rat.add Rat.sub Rat.mul Rat.inv in
/-- Witness for the amended C1: a fresh case planned at integer time 100 gets
admission time 128 ≥ 124 in `OptimizedPlanner2.0`, and 148 ≥ 124 in
`HeuristicPlanner`. -/
theorem plan_min_lead_time_witness :
    ((OP2.plan OP2.freshState ["C1"] [] ((100 : ℤ) : ℚ)).1
        = .ok [(("C1"), 128)] ∧ (100 : ℤ) + 24 ≤ 128) ∧
    ((("C1"), (148 : ℚ)) ∈ HP.plan HP.freshState ["C1"] [] 100 ∧
      (100 : ℚ) + 24 ≤ 148) := by
  have h1 : (OP2.plan OP2.freshState ["C1"] [] ((100 : ℤ) : ℚ)).1
      = .ok [(("C1"), 128)] := by decide
  have h2 : (("C1"), (148 : ℚ)) ∈ HP.plan HP.freshState ["C1"] [] 100 := by
    decide
  refine ⟨⟨h1, ?_⟩, ⟨h2, ?_⟩⟩
  · exact plan_min_lead_time.1 OP2.freshState ["C1"] [] 100 [(("C1"), 128)] h1
      (("C1"), 128) (List.mem_singleton.mpr rfl)
  · exact plan_min_lead_time.2 HP.freshState ["C1"] [] 100 (("C1"), 148) h2

unseal Rat.add Rat.sub Rat.mul Rat.inv in
/-- Counterexample to C1 as stated: at the non-integer simulation time 100.4
(= 502/5), a weekday critical-priority case is emitted with rounded admission
time 124, which is strictly earlier than 100.4 + 24 = 124.4. -/
theorem OP2_plan_lead_time_cex :
    (OP2.plan { OP2.freshState with
        patient_diagnoses := updMap (fun _ => none) ("C1") ("A3") }
      ["C1"] [] (502/5)).1 = Except.ok [(("C1"), 124)] ∧
    ((124 : ℤ) : ℚ) < 502/5 + 24 := by
  constructor
  · decide
  · decide

/-! ## Claim C4 -/

unseal Rat.add Rat.sub Rat.mul Rat.inv in
/-- Claim C4 fails on the code (code bug): `OptimizedPlanner2.0.plan` with an
empty `cases_to_plan` and a non-empty `cases_to_replan` reads the unassigned
loop variable `target_day` (line 101) and raises a `NameError`;
`OptimizedPlanner.plan` with an empty `cases_to_plan` reads the unassigned
`diagnosis` (line 56) and raises even with both inputs empty. -/
theorem OP_plan_raises_cex :
    (OP2.plan OP2.freshState [] ["C1"] 100).1 = Except.error () ∧
    (OP1.plan OP2.freshState [] [] 0).1 = Except.error () := by
  exact ⟨by decide, by decide⟩

/-! ## Claim C5 -/

/-- Claim C5 (amended): "never replanned" is represented by
`last_replanned.get(case_id, 0)` = 0, not as arbitrarily old — the cooldown
skips a never-replanned case exactly when `simulation_time < 24`; whenever
`simulation_time ≥ 24`, a never-replanned case in `cases_to_replan` always
survives the cooldown as a replan candidate. -/
theorem never_replanned_survives (diag : String → Option String)
    (fp lr : String → Option ℚ) (td : ℤ) (t : ℚ) (cid : String)
    (hnever : lr cid = none) (ht : 24 ≤ t) :
    (∀ (ctr : List String) (cands : List (String × ℤ × ℚ)),
      OP2.replanLoop diag fp lr (some td) t ctr = .ok cands → cid ∈ ctr →
      cid ∈ cands.map (fun e => e.1)) ∧
    (∀ ctr : List String, cid ∈ ctr →
      cid ∈ (OP1.replanLoop diag fp lr td t ctr).map (fun e => e.1)) := by
  constructor
  case right =>
    intro ctr
    induction ctr with
    | nil => intro hmem; simp at hmem
    | cons a rest ih =>
      intro hmem
      simp only [OP1.replanLoop]
      rcases List.mem_cons.mp hmem with hcid | hcid
      · subst hcid
        rw [hnever]
        have hcond : ¬ (t - (Option.getD none 0 : ℚ) < 24) := by
          rw [Option.getD_none]
          intro hc
          linarith
        rw [if_neg hcond]
        simp
      · by_cases hcool : t - ((lr a).getD 0) < 24
        · rw [if_pos hcool]
          exact ih hcid
        · rw [if_neg hcool]
          simp only [List.map_cons, List.mem_cons]
          exact Or.inr (ih hcid)
  intro ctr
  induction ctr with
  | nil =>
    intro cands _ hmem
    simp at hmem
  | cons a rest ih =>
    intro cands hok hmem
    simp only [OP2.replanLoop] at hok
    rcases List.mem_cons.mp hmem with hcid | hcid
    · subst hcid
      rw [hnever] at hok
      have hcond : ¬ (t - (Option.getD none 0 : ℚ) < 24) := by
        rw [Option.getD_none]
        intro hc
        linarith
      rw [if_neg hcond] at hok
      rcases hrec : OP2.replanLoop diag fp lr (some td) t rest with e | l
      · rw [hrec] at hok; simp at hok
      · rw [hrec] at hok
        simp only [Except.ok.injEq] at hok
        rw [← hok]
        simp
    · by_cases hcool : t - ((lr a).getD 0) < 24
      · rw [if_pos hcool] at hok
        exact ih cands hok hcid
      · rw [if_neg hcool] at hok
        rcases hrec : OP2.replanLoop diag fp lr (some td) t rest with e | l
        · rw [hrec] at hok; simp at hok
        · rw [hrec] at hok
          simp only [Except.ok.injEq] at hok
          rw [← hok]
          simp only [List.map_cons, List.mem_cons]
          exact Or.inr (ih l hrec hcid)

unseal Rat.add Rat.sub Rat.mul Rat.inv in
/-- Witness for the amended C5: at time 24 a never-replanned case survives as
the sole replan candidate in both planner variants. -/
theorem never_replanned_survives_witness :
    (fun _ : String => (none : Option ℚ)) ("C1") = none ∧
    (24 : ℚ) ≤ 24 ∧
    OP2.replanLoop (fun _ => none) (fun _ => none) (fun _ => none)
      (some 0) 24 ["C1"] = .ok [(("C1"), 2, 0)] ∧
    ("C1") ∈ ([(("C1"), 2, 0)] : List (String × ℤ × ℚ)).map (fun e => e.1) ∧
    ("C1") ∈ (OP1.replanLoop (fun _ => none) (fun _ => none) (fun _ => none)
      0 24 ["C1"]).map (fun e => e.1) := by
  refine ⟨rfl, le_refl _, by decide, ?_, ?_⟩
  · exact (never_replanned_survives (fun _ => none) (fun _ => none)
      (fun _ => none) 0 24 ("C1") rfl (le_refl _)).1 ["C1"]
      [(("C1"), 2, 0)] (by decide) (by decide)
  · exact (never_replanned_survives (fun _ => none) (fun _ => none)
      (fun _ => none) 0 24 ("C1") rfl (le_refl _)).2 ["C1"] (by decide)

unseal Rat.add Rat.sub Rat.mul Rat.inv in
/-- Counterexample to C5 as stated: on a fresh planner at simulation time 10,
case C1 has never been replanned, yet the cooldown check skips it — the call
returns only the fresh entry for case D and no entry for C1. -/
theorem OP2_cooldown_skips_never_replanned_cex :
    OP2.freshState.last_replanned ("C1") = none ∧
    (OP2.plan OP2.freshState ["D"] ["C1"] 10).1 = Except.ok [(("D"), 38)] := by
  exact ⟨rfl, by decide⟩

/-! ## Claim C8 -/

/-- Claim C8 (amended): `HeuristicPlanner.calculate_priority` with
`is_replan = true` scores exactly 20 *higher* than with `is_replan = false` on
the same ledger state — the `replanning_penalty` is added to a
higher-is-more-urgent score, so it acts as a bonus, and a replanned case never
scores below an otherwise-identical new case. -/
theorem HP_priority_replan_adjustment (st : HPState) (cid : String) (t : ℚ) :
    HP.calculate_priority st cid t true
      = HP.calculate_priority st cid t false + 20 := by
  simp only [HP.calculate_priority]
  norm_num

unseal Rat.add Rat.sub Rat.mul Rat.inv in
/-- Counterexample to C8 as stated: on an empty ledger the replan score (20)
is strictly greater than the new-case score (0), not less than or equal. -/
theorem HP_priority_replan_bonus_cex :
    HP.calculate_priority HP.freshState ("C1") 100 false
      < HP.calculate_priority HP.freshState ("C1") 100 true := by
  decide

/-! ## Claim C9 -/

unseal Rat.add Rat.sub Rat.mul Rat.inv in
/-- Claim C9: on a fresh planner with no diagnosis recorded,
`plan(cases_to_plan=[C1], cases_to_replan=[], simulation_time=100)` returns
exactly one entry `(C1, 128)` with `128 ≥ 124`, in both
`OptimizedPlanner2.0` and `OptimizedPlanner`. -/
theorem OP_plan_new_case_scenario :
    (OP2.plan OP2.freshState ["C1"] [] 100).1 = Except.ok [(("C1"), 128)] ∧
    (OP1.plan OP2.freshState ["C1"] [] 100).1 = Except.ok [(("C1"), 128)] ∧
    (100 : ℤ) + 24 ≤ 128 := by
  exact ⟨by decide, by decide, by decide⟩
